import Mathlib

/-!
Shallow embedding of the fleet-monitoring core of `examples/monitor_printers.py`
(job lifecycle tracking, orchestrator cycle membership) together with the
spec-described material-slot decoder and usage ledger, and proofs of the
specification's claims about them.

Times are rationals (seconds); Python's `int()` truncation on the nonnegative
quantities involved is `Int.floor`; a value that Python reports as a
non-numeric placeholder (`"Unknown"`, `None`) is `Option.none`.
-/

/-- One row of the `printer_job_history` table.  `endTime = none` models the
SQL `end_time IS NULL`, i.e. an open job. -/
structure JobRow where
  printerId : Nat
  filename : String
  startTime : ℚ
  status : String
  totalPrintTime : Option ℤ
  endTime : Option ℚ
  deriving DecidableEq, Repr

/-- Observable side effects of `log_job_event` other than table writes:
the console/commit messages distinguishing the three outcomes. -/
inductive JobEvent where
  | startLogged (printerId : Nat) (filename : String)
  | endLogged (printerId : Nat) (filename : String) (status : String)
  | reconcileWarning (printerId : Nat) (filename : String)
  deriving DecidableEq, Repr

/-- Python truthiness of an optional string (`None` and `""` are falsy). -/
def pyTruthy : Option String → Bool
  | none => false
  | some s => decide (s ≠ "")

/-- Line 715: `gcode_file = client.gcode_file() or "[dim]N/A[/]"`.
A falsy reported file name (None or empty) is replaced by the display
placeholder, which is itself a truthy string. -/
def effectiveGcode : Option String → String
  | none => "[dim]N/A[/]"
  | some s => if s = "" then "[dim]N/A[/]" else s

/-- Lines 494-495: `remaining_seconds = int(remaining_time_min * 60)` guarded by
`isinstance(remaining_time_min, (int, float)) and remaining_time_min >= 0`. -/
def remainingSecondsOf : Option ℚ → Option ℤ
  | none => none
  | some m => if 0 ≤ m then some ⌊m * 60⌋ else none

/-- Lines 497-509: `estimated_total_seconds = int(remaining_seconds * 100.0 /
(100.0 - percentage))` when `0 < percentage < 100`, else the remaining seconds
themselves. -/
def estTotalSeconds (r : ℤ) : Option ℚ → ℤ
  | none => r
  | some p => if 0 < p ∧ p < 100 then ⌊(r * 100 : ℚ) / (100 - p)⌋ else r

/-- Lines 516-532: `actual_start_time = now - timedelta(seconds =
percentage * remaining_seconds / (100 - percentage))` when
`0 < percentage < 100` and remaining seconds are known; otherwise `now`. -/
def estStartTime (now : ℚ) : Option ℚ → Option ℤ → ℚ
  | some p, some r => if 0 < p ∧ p < 100 then now - p * r / (100 - p) else now
  | _, _ => now

/-- The SQL predicate `printer_id = %s AND filename = %s AND end_time IS NULL`
used both by the duplicate-start guard (lines 478-484) and the closing
UPDATE (lines 564-567). -/
def isOpenMatch (pId : Nat) (fname : String) (j : JobRow) : Bool :=
  decide (j.printerId = pId ∧ j.filename = fname ∧ j.endTime = none)

/-- Effect of the closing UPDATE (lines 564-570) on one matching row:
`SET end_time = %s, status = %s`. -/
def closeRow (now : ℚ) (curStatus : String) (j : JobRow) : JobRow :=
  ⟨j.printerId, j.filename, j.startTime, curStatus, j.totalPrintTime, some now⟩

/-- `log_job_event` (lines 464-599): start detection with the duplicate-poll
guard, end detection with the reconciliation warning, and no-op otherwise.
Returns the new `printer_job_history` table and the emitted events. -/
def logJobEvent (pId : Nat) (curStatus : String) (curFilename : String)
    (prevStatus : Option String) (prevFilename : Option String)
    (remainingTimeMin : Option ℚ) (percentage : Option ℚ)
    (now : ℚ) (jobs : List JobRow) : List JobRow × List JobEvent :=
  let is_running : Bool := decide (curStatus = "RUNNING")
  let was_running : Bool := decide (prevStatus = some "RUNNING")
  if ¬was_running ∧ is_running ∧ curFilename ≠ "" then
    if jobs.countP (isOpenMatch pId curFilename) = 0 then
      let remainingSeconds := remainingSecondsOf remainingTimeMin
      let interval : Option ℤ := remainingSeconds.map (fun r => estTotalSeconds r percentage)
      let start := estStartTime now percentage remainingSeconds
      (jobs ++ [⟨pId, curFilename, start, curStatus, interval, none⟩],
       [JobEvent.startLogged pId curFilename])
    else
      (jobs, [])
  else if was_running ∧ ¬is_running ∧ pyTruthy prevFilename then
    let f := prevFilename.getD ""
    if jobs.any (isOpenMatch pId f) then
      (jobs.map (fun j => if isOpenMatch pId f j then closeRow now curStatus j else j),
       [JobEvent.endLogged pId f curStatus])
    else
      (jobs, [JobEvent.reconcileWarning pId f])
  else
    (jobs, [])

/-- The fields of one status read relevant to job tracking (lines 713-720):
run state, reported gcode file, remaining time in minutes, completion
percentage.  `none` models the non-numeric placeholder values. -/
structure Snapshot where
  status : String
  gcodeFile : Option String
  remainingTimeMin : Option ℚ
  percentage : Option ℚ
  deriving DecidableEq, Repr

/-- The per-printer mutable fields of the `active_printers` entries that job
tracking reads and writes (lines 116-123): `previous_status` and
`previous_filename`, both initially `None`. -/
structure PrinterState where
  id : Nat
  prevStatus : Option String
  prevFilename : Option String
  deriving DecidableEq, Repr

/-- Lines 1094-1099: hand the snapshot to `log_job_event` and then update the
remembered previous state with the current (placeholder-defaulted) values. -/
def processSnapshot (ps : PrinterState) (s : Snapshot) (now : ℚ)
    (jobs : List JobRow) : PrinterState × List JobRow × List JobEvent :=
  let g := effectiveGcode s.gcodeFile
  let r := logJobEvent ps.id s.status g ps.prevStatus ps.prevFilename
      s.remainingTimeMin s.percentage now jobs
  (⟨ps.id, some s.status, some g⟩, r.1, r.2)

/-- One per-printer iteration of the monitoring loop body (lines 712-1108).
`none` models an exception raised while retrieving the status: the handler at
lines 1102-1108 logs it and skips the printer, so neither the remembered
previous state nor the job table changes. -/
def stepPrinterPoll (ps : PrinterState) (fetch : Option (Snapshot × ℚ))
    (jobs : List JobRow) : PrinterState × List JobRow × List JobEvent :=
  match fetch with
  | none => (ps, jobs, [])
  | some (s, now) => processSnapshot ps s now jobs

/-- A sequence of monitoring cycles for one printer: each cycle either yields
a snapshot or raises (`none`). -/
def runPolls (ps : PrinterState) (jobs : List JobRow) :
    List (Option (Snapshot × ℚ)) → PrinterState × List JobRow
  | [] => (ps, jobs)
  | f :: rest =>
    let r := stepPrinterPoll ps f jobs
    runPolls r.1 r.2.1 rest

/-- One full pass of the `for printer_info in active_printers` loop
(lines 676-1108) over a fleet: each printer is stepped in order on the shared
job table; a printer whose fetch raises is skipped by its handler. -/
def pollCycleJobs : List (PrinterState × Option (Snapshot × ℚ)) → List JobRow →
    List PrinterState × List JobRow
  | [], jobs => ([], jobs)
  | (ps, f) :: rest, jobs =>
    let r := stepPrinterPoll ps f jobs
    let acc := pollCycleJobs rest r.2.1
    (r.1 :: acc.1, acc.2)

/-- Number of open (`end_time IS NULL`) job rows of one printer. -/
def openCount (pId : Nat) (jobs : List JobRow) : Nat :=
  jobs.countP (fun j => decide (j.printerId = pId ∧ j.endTime = none))

/-- Number of open job rows of one printer with one file name. -/
def openCountFile (pId : Nat) (fname : String) (jobs : List JobRow) : Nat :=
  jobs.countP (isOpenMatch pId fname)

/-- The state of a freshly initialized `active_printers` entry
(lines 116-123). -/
def initState (pId : Nat) : PrinterState := ⟨pId, none, none⟩

/-- The per-(printer, filename) open-row uniqueness that the duplicate-start
guard maintains. -/
def OpenInv (jobs : List JobRow) : Prop :=
  ∀ pId fname, openCountFile pId fname jobs ≤ 1

/-- Modelled from the spec: the decoded active-slot indicator.  The structured
coordinates (holder index, position index), the single external source, or an
unknown indication.  The Material Snapshot Engine of spec section 4.4 is not
part of the repository sources; only its interface is described there. -/
inductive SlotRef where
  | slot (holder position : Nat)
  | outside
  | unknown
  deriving DecidableEq, Repr

/-- Modelled from the spec: active-slot decoding of the device's single integer
code.  `code < 16` gives holder `code div 4` and position `code mod 4`;
codes 254 and 255 give the external source; anything else is unknown. -/
def decodeActiveSlot (code : Nat) : SlotRef :=
  if code < 16 then SlotRef.slot (code / 4) (code % 4)
  else if code = 254 ∨ code = 255 then SlotRef.outside
  else SlotRef.unknown

/-- Modelled from the spec: one usage-ledger row, created once per loaded slot
at job start; `wasUsed` is the only field mutated afterwards. -/
structure MaterialUsageEntry where
  jobId : Nat
  slot : SlotRef
  isPrimary : Bool
  wasUsed : Bool
  deriving DecidableEq, Repr

/-- Modelled from the spec: the per-row effect of the usage-ledger update —
set `wasUsed = true` on the entry of the current job whose coordinates equal
the decoded pair, if not already true (the write is a no-op once true). -/
def markEntry (jobId : Nat) (h p : Nat) (e : MaterialUsageEntry) :
    MaterialUsageEntry :=
  if e.jobId = jobId ∧ e.slot = SlotRef.slot h p ∧ e.wasUsed = false then
    ⟨e.jobId, e.slot, e.isPrimary, true⟩
  else e

/-- Modelled from the spec: the usage-ledger update run on every RUNNING poll
while a job is open.  Re-decode the active-slot indicator; if it resolves to a
holder/position pair, set `wasUsed = true` on the matching entry of the
current job if not already true; otherwise do not touch the ledger. -/
def markUsage (entries : List MaterialUsageEntry) (jobId : Nat) (code : Nat) :
    List MaterialUsageEntry :=
  match decodeActiveSlot code with
  | SlotRef.slot h p => entries.map (markEntry jobId h p)
  | _ => entries

/-- The connection-relevant fields of one `active_printers` entry:
`client.mqtt_client.is_connected()` and `client.mqtt_client.ready()`. -/
structure APrinter where
  id : Nat
  connected : Bool
  ready : Bool
  deriving DecidableEq, Repr

/-- Membership state of the orchestrator: the `active_printers` list and the
ids held in `unreachable_printers`. -/
structure FleetState where
  active : List APrinter
  unreachable : List Nat
  deriving DecidableEq, Repr

/-- Lines 687-704: if the client is disconnected, one reconnect attempt is
made (`mqtt_stop` / `mqtt_start`); whether it succeeds or fails, the loop then
either proceeds or `continue`s — the printer is never removed from
`active_printers` and never recorded anywhere else. -/
def pollOne (p : APrinter) (reconnectOk : Bool) : APrinter :=
  if p.connected then p else ⟨p.id, reconnectOk, p.ready⟩

/-- Membership effect of one monitoring cycle (lines 603-709): when the retry
interval is due, each id in `unreachable_printers` whose ping and fresh
connect succeed moves back to `active_printers`; then every active printer is
health-checked in place.  No code path appends to `unreachable_printers`. -/
def monitorCycleMembership (fs : FleetState) (retryDue : Bool)
    (retryOk : Nat → Bool) (reconnectOk : Nat → Bool) : FleetState :=
  let promoted := if retryDue then fs.unreachable.filter retryOk else []
  let remaining :=
    if retryDue then fs.unreachable.filter (fun i => !retryOk i) else fs.unreachable
  let active := fs.active ++ promoted.map (fun i => ⟨i, true, true⟩)
  ⟨active.map (fun p => pollOne p (reconnectOk p.id)), remaining⟩

/-- Helper: `log_job_event` preserves per-(printer, filename) open-row
uniqueness. -/
theorem openInv_logJobEvent (pId : Nat) (curStatus curF : String)
    (prevStatus prevFilename : Option String) (rm pc : Option ℚ) (now : ℚ)
    (jobs : List JobRow) (hInv : OpenInv jobs) :
    OpenInv (logJobEvent pId curStatus curF prevStatus prevFilename rm pc now jobs).1 := by
  intro p f
  simp only [logJobEvent]
  split_ifs with h1 h2 h3 h4
  · simp only [openCountFile, List.countP_append, List.countP_singleton]
    by_cases hpf : p = pId ∧ f = curF
    · obtain ⟨rfl, rfl⟩ := hpf
      rw [h2]
      split <;> simp
    · have hrow : isOpenMatch p f ⟨pId, curF, estStartTime now pc (remainingSecondsOf rm),
          curStatus, (remainingSecondsOf rm).map (fun r => estTotalSeconds r pc), none⟩ = false := by
        simp only [isOpenMatch, decide_eq_false_iff_not]
        rintro ⟨ha, hb, hc⟩
        exact hpf ⟨ha.symm, hb.symm⟩
      rw [hrow]
      simpa using hInv p f
  · exact hInv p f
  · simp only [openCountFile, List.countP_map]
    calc List.countP (isOpenMatch p f ∘ fun j =>
          if isOpenMatch pId (prevFilename.getD "") j then closeRow now curStatus j else j) jobs
        ≤ List.countP (isOpenMatch p f) jobs := by
          apply List.countP_mono_left
          intro j _ hj
          simp only [Function.comp] at hj
          by_cases hc : isOpenMatch pId (prevFilename.getD "") j = true
          · rw [if_pos hc] at hj
            simp [isOpenMatch, closeRow] at hj
          · rw [if_neg hc] at hj
            exact hj
      _ ≤ 1 := hInv p f
  · exact hInv p f
  · exact hInv p f

/-- C1 (amended): processing snapshots preserves the invariant that every
(device, filename) pair has at most one open `printer_job_history` row — the
duplicate-poll guard keys on printer id AND filename, so the per-pair form is
what the code maintains; and a second start detection for the same device and
file name while the first record is open inserts nothing. -/
theorem openJob_unique_per_device_and_file :
    (∀ (ps : PrinterState) (s : Snapshot) (now : ℚ) (jobs : List JobRow),
      OpenInv jobs → OpenInv (processSnapshot ps s now jobs).2.1) ∧
    (∀ (ps : PrinterState) (jobs : List JobRow) (fetches : List (Option (Snapshot × ℚ))),
      OpenInv jobs → OpenInv (runPolls ps jobs fetches).2) ∧
    (∀ (pId : Nat) (curF : String) (prevSt prevF : Option String) (rm pc : Option ℚ)
      (now : ℚ) (jobs : List JobRow),
      prevSt ≠ some "RUNNING" → curF ≠ "" → 1 ≤ openCountFile pId curF jobs →
      logJobEvent pId "RUNNING" curF prevSt prevF rm pc now jobs = (jobs, [])) := by
  refine ⟨fun ps s now jobs h => openInv_logJobEvent _ _ _ _ _ _ _ _ _ h, ?_, ?_⟩
  · intro ps jobs fetches
    induction fetches generalizing ps jobs with
    | nil => exact fun h => h
    | cons f rest ih =>
      intro h
      match f with
      | none => exact ih ps jobs h
      | some (s, now) => exact ih _ _ (openInv_logJobEvent _ _ _ _ _ _ _ _ _ h)
  · intro pId curF prevSt prevF rm pc now jobs hprev hF hopen
    simp only [logJobEvent]
    rw [if_pos ⟨by simpa using hprev, by simp, hF⟩, if_neg (by
      simp only [openCountFile] at hopen
      omega)]

/-- C1 counterexample: the device-level invariant fails — the reachable trace
RUNNING("a"), RUNNING("b"), IDLE, RUNNING("b") leaves two open rows for
printer 1 (the RUNNING-to-RUNNING file change is neither a start nor an end,
and the end detection for "b" finds nothing to close while "a" stays open). -/
theorem openJob_per_device_not_unique :
    1 < openCount 1 (runPolls (initState 1) []
      [some (⟨"RUNNING", some "a", none, none⟩, 0),
       some (⟨"RUNNING", some "b", none, none⟩, 1),
       some (⟨"IDLE", none, none, none⟩, 2),
       some (⟨"RUNNING", some "b", none, none⟩, 3)]).2 := by decide

theorem openJob_unique_per_device_and_file_witness :
    (some "IDLE" ≠ some "RUNNING") ∧ ("a" ≠ "") ∧
      1 ≤ openCountFile 1 "a" [⟨1, "a", 0, "RUNNING", none, none⟩] ∧
      logJobEvent 1 "RUNNING" "a" (some "IDLE") none none none 0
          [⟨1, "a", 0, "RUNNING", none, none⟩] =
        ([⟨1, "a", 0, "RUNNING", none, none⟩], []) :=
  ⟨by decide, by decide, by decide,
    openJob_unique_per_device_and_file.2.2 1 "a" (some "IDLE") none none none 0
      [⟨1, "a", 0, "RUNNING", none, none⟩] (by decide) (by decide) (by decide)⟩

/-- C2 (code slip): line 715 defaults a falsy reported file name to the truthy
display placeholder, and line 1094 passes that placeholder to
`log_job_event`, so an IDLE-to-RUNNING transition with NO reported file name
still inserts an open job row whose filename is the placeholder — although
line 1081 deliberately maps the placeholder back to NULL for the printers
table.  The claim (no insert without a reported file name) matches the
intent, not the code. -/
theorem no_reported_filename_still_inserts :
    (runPolls (initState 1) []
      [some (⟨"IDLE", none, none, none⟩, 0),
       some (⟨"RUNNING", none, none, none⟩, 1)]).2 =
      [⟨1, "[dim]N/A[/]", 1, "RUNNING", none, none⟩] := by decide

/-- C3: on a RUNNING-to-not-RUNNING transition with a remembered previous
file name, every open row matching (printer, previous filename) — by the
uniqueness invariant there is at most one, hence exactly the most recent —
is closed with `end_time = now` and `status =` the current run state, other
rows are untouched; when no such row exists, only the reconciliation warning
is emitted and the table is unchanged. -/
theorem logJobEvent_end_detection (pId : Nat) (curStatus curF f : String)
    (rm pc : Option ℚ) (now : ℚ) (jobs : List JobRow)
    (hcur : curStatus ≠ "RUNNING") (hf : f ≠ "") :
    ((∃ j ∈ jobs, isOpenMatch pId f j) →
      logJobEvent pId curStatus curF (some "RUNNING") (some f) rm pc now jobs =
        (jobs.map (fun j => if isOpenMatch pId f j then closeRow now curStatus j else j),
         [JobEvent.endLogged pId f curStatus])) ∧
    ((∀ j ∈ jobs, ¬isOpenMatch pId f j) →
      logJobEvent pId curStatus curF (some "RUNNING") (some f) rm pc now jobs =
        (jobs, [JobEvent.reconcileWarning pId f])) := by
  constructor
  · intro hmatch
    simp only [logJobEvent]
    rw [if_neg (by simp), if_pos ⟨by simp, by simpa using hcur, by simp [pyTruthy, hf]⟩,
      if_pos (by simpa [List.any_eq_true] using hmatch)]
    simp
  · intro hnone
    simp only [logJobEvent]
    rw [if_neg (by simp), if_pos ⟨by simp, by simpa using hcur, by simp [pyTruthy, hf]⟩,
      if_neg (by simpa [List.any_eq_true] using hnone)]
    simp

theorem logJobEvent_end_detection_witness :
    ("FINISH" ≠ "RUNNING") ∧ ("a" ≠ "") ∧
      logJobEvent 1 "FINISH" "[dim]N/A[/]" (some "RUNNING") (some "a") none none 5
          [⟨1, "a", 0, "RUNNING", none, none⟩] =
        ([⟨1, "a", 0, "FINISH", none, some 5⟩], [JobEvent.endLogged 1 "a" "FINISH"]) := by
  refine ⟨by decide, by decide, ?_⟩
  have h := (logJobEvent_end_detection 1 "FINISH" "[dim]N/A[/]" "a" none none 5
      [⟨1, "a", 0, "RUNNING", none, none⟩] (by decide) (by decide)).1
      ⟨⟨1, "a", 0, "RUNNING", none, none⟩, by simp, by decide⟩
  rw [h]
  rfl

/-- Helper: the start-detection insert, when the transition fires and the
duplicate-poll guard finds no open row. -/
theorem logJobEvent_start_insert (pId : Nat) (curF : String)
    (prevStatus prevFilename : Option String) (rm pc : Option ℚ) (now : ℚ)
    (jobs : List JobRow)
    (hprev : prevStatus ≠ some "RUNNING") (hF : curF ≠ "")
    (hguard : openCountFile pId curF jobs = 0) :
    logJobEvent pId "RUNNING" curF prevStatus prevFilename rm pc now jobs =
      (jobs ++ [⟨pId, curF, estStartTime now pc (remainingSecondsOf rm), "RUNNING",
        (remainingSecondsOf rm).map (fun r => estTotalSeconds r pc), none⟩],
       [JobEvent.startLogged pId curF]) := by
  simp only [logJobEvent]
  rw [if_pos ⟨by simpa using hprev, by simp, hF⟩,
    if_pos (by simpa [openCountFile] using hguard)]

/-- Helper: integer minutes convert to 60-fold seconds. -/
theorem remainingSecondsOf_natCast (k : ℕ) :
    remainingSecondsOf (some (k : ℚ)) = some (60 * (k : ℤ)) := by
  simp only [remainingSecondsOf, if_pos (by positivity : (0:ℚ) ≤ (k:ℚ))]
  congr 1
  have : ((k : ℚ)) * 60 = ((60 * (k : ℤ) : ℤ) : ℚ) := by push_cast; ring
  rw [this, Int.floor_intCast]

/-- C5: with remaining time a known non-negative whole number of minutes and
percentage strictly between 0 and 100, the inserted row's start time is the
detection time minus `percentage * remainingSeconds / (100 - percentage)`
seconds; with percentage 0, 100 or unknown it is the detection time. -/
theorem start_time_back_estimation (pId : Nat) (curF : String)
    (prevStatus prevFilename : Option String) (k : ℕ) (now : ℚ)
    (jobs : List JobRow)
    (hprev : prevStatus ≠ some "RUNNING") (hF : curF ≠ "")
    (hguard : openCountFile pId curF jobs = 0) :
    (∀ p : ℚ, 0 < p → p < 100 → ∃ r : JobRow,
      (logJobEvent pId "RUNNING" curF prevStatus prevFilename (some k) (some p) now jobs).1 =
        jobs ++ [r] ∧ r.startTime = now - p * (60 * k) / (100 - p)) ∧
    (∀ pc : Option ℚ, pc = none ∨ pc = some 0 ∨ pc = some 100 → ∃ r : JobRow,
      (logJobEvent pId "RUNNING" curF prevStatus prevFilename (some k) pc now jobs).1 =
        jobs ++ [r] ∧ r.startTime = now) := by
  constructor
  · intro p hp hp'
    rw [logJobEvent_start_insert pId curF prevStatus prevFilename
      (some k) (some p) now jobs hprev hF hguard]
    refine ⟨_, rfl, ?_⟩
    rw [remainingSecondsOf_natCast]
    show estStartTime now (some p) (some (60 * (k:ℤ))) = _
    simp only [estStartTime]
    rw [if_pos (⟨hp, hp'⟩ : 0 < p ∧ p < 100)]
    push_cast
    ring
  · rintro pc (rfl | rfl | rfl) <;>
      [skip; skip; skip] <;>
      (rw [logJobEvent_start_insert pId curF prevStatus prevFilename
        (some k) _ now jobs hprev hF hguard]
       refine ⟨_, rfl, ?_⟩
       rw [remainingSecondsOf_natCast]
       simp [estStartTime])

/-- C6: with remaining time a known non-negative whole number of minutes
(so remainingSeconds = 60 * minutes), the stored estimated total duration is
`remainingSeconds * 100 / (100 - percentage)` seconds (integer division, as
stored in the interval column) when the percentage is strictly between 0 and
100, and `remainingSeconds` otherwise. -/
theorem total_duration_estimation (pId : Nat) (curF : String)
    (prevStatus prevFilename : Option String) (k : ℕ) (now : ℚ)
    (jobs : List JobRow)
    (hprev : prevStatus ≠ some "RUNNING") (hF : curF ≠ "")
    (hguard : openCountFile pId curF jobs = 0) :
    (∀ q : ℕ, 0 < q → q < 100 → ∃ r : JobRow,
      (logJobEvent pId "RUNNING" curF prevStatus prevFilename (some k) (some q) now jobs).1 =
        jobs ++ [r] ∧
      r.totalPrintTime = some (60 * (k : ℤ) * 100 / (100 - (q : ℤ)))) ∧
    (∀ pc : Option ℚ, (∀ q : ℚ, pc = some q → ¬(0 < q ∧ q < 100)) → ∃ r : JobRow,
      (logJobEvent pId "RUNNING" curF prevStatus prevFilename (some k) pc now jobs).1 =
        jobs ++ [r] ∧
      r.totalPrintTime = some (60 * (k : ℤ))) := by
  constructor
  · intro q hq hq'
    rw [logJobEvent_start_insert pId curF prevStatus prevFilename
      (some k) (some q) now jobs hprev hF hguard]
    refine ⟨_, rfl, ?_⟩
    rw [remainingSecondsOf_natCast]
    show some (estTotalSeconds (60 * (k:ℤ)) (some (q:ℚ))) = _
    simp only [estTotalSeconds]
    rw [if_pos (⟨by exact_mod_cast hq, by exact_mod_cast hq'⟩ :
      0 < (q:ℚ) ∧ (q:ℚ) < 100)]
    congr 1
    have hnum : ((60 * (k:ℤ) : ℤ) : ℚ) * 100 = ((60 * (k:ℤ) * 100 : ℤ) : ℚ) := by
      push_cast; ring
    have hden : (100 : ℚ) - (q : ℚ) = ((100 - q : ℕ) : ℚ) := by
      rw [Nat.cast_sub (le_of_lt hq')]
      push_cast; ring
    rw [hnum, hden, Rat.floor_intCast_div_natCast]
    congr 1
    rw [Nat.cast_sub (le_of_lt hq')]
    push_cast; ring
  · intro pc hpc
    rw [logJobEvent_start_insert pId curF prevStatus prevFilename
      (some k) pc now jobs hprev hF hguard]
    refine ⟨_, rfl, ?_⟩
    rw [remainingSecondsOf_natCast]
    show some (estTotalSeconds (60 * (k:ℤ)) pc) = _
    match pc with
    | none => rfl
    | some q =>
      simp only [estTotalSeconds]
      rw [if_neg (hpc q rfl)]

theorem start_time_back_estimation_witness :
    (∃ r : JobRow,
      (logJobEvent 1 "RUNNING" "a" (some "IDLE") none (some (30:ℕ)) (some 50) 2000 []).1 =
        [] ++ [r] ∧ r.startTime = 2000 - 50 * (60 * ((30:ℕ):ℚ)) / (100 - 50)) ∧
    (2000 - 50 * (60 * ((30:ℕ):ℚ)) / (100 - 50) = 2000 - 30 * 60) :=
  ⟨(start_time_back_estimation 1 "a" (some "IDLE") none 30 2000 []
      (by decide) (by decide) rfl).1 50 (by decide) (by decide),
   by norm_num⟩

theorem total_duration_estimation_witness :
    (∃ r : JobRow,
      (logJobEvent 1 "RUNNING" "a" (some "IDLE") none (some (30:ℕ)) (some ((50:ℕ):ℚ)) 2000 []).1 =
        [] ++ [r] ∧ r.totalPrintTime = some (60 * ((30:ℕ) : ℤ) * 100 / (100 - ((50:ℕ) : ℤ)))) ∧
    (60 * ((30:ℕ) : ℤ) * 100 / (100 - ((50:ℕ) : ℤ)) = 3600) :=
  ⟨(total_duration_estimation 1 "a" (some "IDLE") none 30 2000 []
      (by decide) (by decide) rfl).1 50 (by decide) (by decide),
   by decide⟩

/-- C4 (modelled from the spec; the decoder is not part of the repository
sources): codes below 16 decode to holder `code div 4`, position
`code mod 4`; 254 and 255 decode to the external source; every other code is
unknown and leaves the usage ledger untouched. -/
theorem decodeActiveSlot_spec :
    (∀ code : Nat, code < 16 →
      decodeActiveSlot code = SlotRef.slot (code / 4) (code % 4)) ∧
    decodeActiveSlot 0 = SlotRef.slot 0 0 ∧
    decodeActiveSlot 5 = SlotRef.slot 1 1 ∧
    decodeActiveSlot 15 = SlotRef.slot 3 3 ∧
    decodeActiveSlot 254 = SlotRef.outside ∧
    decodeActiveSlot 255 = SlotRef.outside ∧
    (∀ code : Nat, 16 ≤ code → code ≠ 254 → code ≠ 255 →
      decodeActiveSlot code = SlotRef.unknown ∧
      ∀ (es : List MaterialUsageEntry) (jobId : Nat), markUsage es jobId code = es) := by
  refine ⟨fun code h => ?_, by decide, by decide, by decide, by decide, by decide,
    fun code h h254 h255 => ?_⟩
  · simp [decodeActiveSlot, h]
  · have hd : decodeActiveSlot code = SlotRef.unknown := by
      simp [decodeActiveSlot, Nat.not_lt.mpr h, h254, h255]
    exact ⟨hd, fun es jobId => by simp [markUsage, hd]⟩

theorem decodeActiveSlot_spec_witness :
    (5 : Nat) < 16 ∧ decodeActiveSlot 5 = SlotRef.slot (5 / 4) (5 % 4) ∧
      (16:Nat) ≤ 16 ∧
      markUsage [⟨7, SlotRef.slot 0 1, true, false⟩] 7 16 =
        [⟨7, SlotRef.slot 0 1, true, false⟩] :=
  ⟨by decide, decodeActiveSlot_spec.1 5 (by decide), by decide,
    (decodeActiveSlot_spec.2.2.2.2.2.2 16 (by decide) (by decide) (by decide)).2
      [⟨7, SlotRef.slot 0 1, true, false⟩] 7⟩

/-- Helper: marking is idempotent per entry. -/
theorem markEntry_idem (jobId h p : Nat) (e : MaterialUsageEntry) :
    markEntry jobId h p (markEntry jobId h p e) = markEntry jobId h p e := by
  simp only [markEntry]
  split_ifs with h1 <;> simp_all

/-- Helper: marking never changes jobId, slot or isPrimary. -/
theorem markEntry_fields (jobId h p : Nat) (e : MaterialUsageEntry) :
    (markEntry jobId h p e).jobId = e.jobId ∧
    (markEntry jobId h p e).slot = e.slot ∧
    (markEntry jobId h p e).isPrimary = e.isPrimary := by
  simp only [markEntry]
  split_ifs <;> simp

/-- Helper: marking never resets `wasUsed`. -/
theorem markEntry_used_mono (jobId h p : Nat) (e : MaterialUsageEntry)
    (hw : e.wasUsed = true) : (markEntry jobId h p e).wasUsed = true := by
  simp only [markEntry]
  split_ifs with h1
  · rfl
  · exact hw

/-- Helper: after one update, an entry counts as used-for-the-slot exactly
when it matched the slot. -/
theorem markEntry_used_iff (jobId h p : Nat) (e : MaterialUsageEntry) :
    (decide ((markEntry jobId h p e).jobId = jobId ∧
      (markEntry jobId h p e).slot = SlotRef.slot h p ∧
      (markEntry jobId h p e).wasUsed = true)) =
    (decide (e.jobId = jobId ∧ e.slot = SlotRef.slot h p)) := by
  simp only [markEntry]
  split_ifs with h1
  · simp [h1.1, h1.2.1]
  · by_cases hm : e.jobId = jobId ∧ e.slot = SlotRef.slot h p
    · have hw : e.wasUsed = true := by
        by_contra hw
        exact h1 ⟨hm.1, hm.2, Bool.eq_false_iff.mpr hw⟩
      simp [hm.1, hm.2, hw]
    · simp only [decide_eq_decide]
      constructor
      · rintro ⟨a, b, _⟩; exact ⟨a, b⟩
      · intro hc; exact absurd hc hm

/-- C7 (modelled from the spec; the ledger is not part of the repository
sources — `log_job_filament` only writes one row per job with ON CONFLICT DO
NOTHING): applying the usage-ledger update twice with the same resolvable
active-slot code is the same as applying it once; no rows are added or
removed, jobId/slot are untouched, `wasUsed` never reverts to false, and,
when the ledger holds exactly one entry for the (job, slot) pair, exactly
one entry of that pair ends up with `wasUsed = true`. -/
theorem usage_ledger_update_idempotent (es : List MaterialUsageEntry)
    (jobId code h p : Nat) (hdec : decodeActiveSlot code = SlotRef.slot h p)
    (huniq : es.countP
      (fun e => decide (e.jobId = jobId ∧ e.slot = SlotRef.slot h p)) = 1) :
    markUsage (markUsage es jobId code) jobId code = markUsage es jobId code ∧
    (markUsage es jobId code).length = es.length ∧
    (∀ (i : Nat) (e : MaterialUsageEntry), es[i]? = some e →
      ∃ e', (markUsage es jobId code)[i]? = some e' ∧
        e'.jobId = e.jobId ∧ e'.slot = e.slot ∧
        (e.wasUsed = true → e'.wasUsed = true)) ∧
    (markUsage es jobId code).countP
      (fun e => decide (e.jobId = jobId ∧ e.slot = SlotRef.slot h p ∧
        e.wasUsed = true)) = 1 := by
  simp only [markUsage, hdec]
  refine ⟨?_, List.length_map _ _, ?_, ?_⟩
  · rw [List.map_map]
    exact List.map_congr_left fun e _ => markEntry_idem jobId h p e
  · intro i e he
    refine ⟨markEntry jobId h p e, ?_, (markEntry_fields jobId h p e).1,
      (markEntry_fields jobId h p e).2.1, markEntry_used_mono jobId h p e⟩
    simp [List.getElem?_map, he]
  · rw [List.countP_map]
    calc List.countP ((fun e => decide (e.jobId = jobId ∧
            e.slot = SlotRef.slot h p ∧ e.wasUsed = true)) ∘ markEntry jobId h p) es
        = List.countP (fun e => decide (e.jobId = jobId ∧
            e.slot = SlotRef.slot h p)) es := by
          apply List.countP_congr
          intro e _
          simp only [Function.comp]
          rw [markEntry_used_iff]
      _ = 1 := huniq

theorem usage_ledger_update_idempotent_witness :
    decodeActiveSlot 5 = SlotRef.slot 1 1 ∧
    ([⟨7, SlotRef.slot 1 1, true, false⟩, ⟨7, SlotRef.slot 0 0, false, false⟩] :
        List MaterialUsageEntry).countP
      (fun e => decide (e.jobId = 7 ∧ e.slot = SlotRef.slot 1 1)) = 1 ∧
    (markUsage [⟨7, SlotRef.slot 1 1, true, false⟩, ⟨7, SlotRef.slot 0 0, false, false⟩] 7 5).countP
      (fun e => decide (e.jobId = 7 ∧ e.slot = SlotRef.slot 1 1 ∧ e.wasUsed = true)) = 1 :=
  ⟨by decide, by decide,
    (usage_ledger_update_idempotent
      [⟨7, SlotRef.slot 1 1, true, false⟩, ⟨7, SlotRef.slot 0 0, false, false⟩]
      7 5 1 1 (by decide) (by decide)).2.2.2⟩

/-- Helper: the reconnect attempt never changes a printer's identity. -/
theorem pollOne_id (p : APrinter) (r : Bool) : (pollOne p r).id = p.id := by
  unfold pollOne
  split <;> rfl

/-- C8 (code slip): the `unreachable_printers` retry machinery exists
(lines 157-160 and 603-674) but no code path ever appends to the list, and a
printer whose connection check and reconnect both fail is merely skipped for
the cycle — the active set's membership never shrinks and the quarantined set
never grows, so the failed printer is polled again on the very next cycle.
The concrete instance evaluates the cycle at such a printer. -/
theorem failed_reconnect_printer_stays_active :
    (∀ (fs : FleetState) (rd : Bool) (r1 r2 : Nat → Bool),
      (monitorCycleMembership fs rd r1 r2).active.map APrinter.id =
        fs.active.map APrinter.id ++
          (if rd then fs.unreachable.filter r1 else []) ∧
      (monitorCycleMembership fs rd r1 r2).unreachable.length ≤
        fs.unreachable.length) ∧
    monitorCycleMembership ⟨[⟨1, false, true⟩], []⟩ false
        (fun _ => false) (fun _ => false) =
      ⟨[⟨1, false, true⟩], []⟩ := by
  refine ⟨fun fs rd r1 r2 => ⟨?_, ?_⟩, by decide⟩
  · have key : ∀ l : List APrinter,
        List.map APrinter.id (List.map (fun p => pollOne p (r2 p.id)) l) =
          List.map APrinter.id l := by
      intro l
      rw [List.map_map]
      exact List.map_congr_left fun p _ => pollOne_id p (r2 p.id)
    simp only [monitorCycleMembership, List.map_append, key]
    have hc : (APrinter.id ∘ fun i : Nat => (⟨i, true, true⟩ : APrinter)) =
        fun i => i := rfl
    rw [List.map_map, hc, List.map_id']
  · simp only [monitorCycleMembership]
    split
    · exact List.length_filter_le _ _
    · exact le_refl _

/-- C9: a device whose status fetch raises is logged and skipped: the poll
cycle still visits every other device, the failing device's remembered state
is returned unchanged, and the job table ends up exactly as if the failing
device had not been polled at all — no single-device failure terminates the
cycle. -/
theorem pollCycle_isolates_failures
    (pre post : List (PrinterState × Option (Snapshot × ℚ)))
    (ps : PrinterState) (jobs : List JobRow) :
    pollCycleJobs (pre ++ (ps, none) :: post) jobs =
      ((pollCycleJobs pre jobs).1 ++
        ps :: (pollCycleJobs post (pollCycleJobs pre jobs).2).1,
       (pollCycleJobs post (pollCycleJobs pre jobs).2).2) := by
  induction pre generalizing jobs with
  | nil => rfl
  | cons hd tl ih =>
    obtain ⟨ps0, f0⟩ := hd
    simp only [pollCycleJobs, List.cons_append, List.append_eq, ih]

/-- C10: a cycle whose fetch raises leaves the remembered previous status,
previous filename and the job table untouched, so any run with a failed
cycle spliced in is indistinguishable from the run without it — a start or
end transition spanning the failed cycle is detected exactly once, at the
next successful poll. -/
theorem failed_poll_invisible :
    (∀ (ps : PrinterState) (jobs : List JobRow),
      stepPrinterPoll ps none jobs = (ps, jobs, [])) ∧
    (∀ (ps : PrinterState) (jobs : List JobRow)
      (pre post : List (Option (Snapshot × ℚ))),
      runPolls ps jobs (pre ++ none :: post) = runPolls ps jobs (pre ++ post)) := by
  refine ⟨fun ps jobs => rfl, fun ps jobs pre post => ?_⟩
  induction pre generalizing ps jobs with
  | nil => rfl
  | cons hd tl ih =>
    simp only [runPolls, List.cons_append]
    exact ih _ _
